import Mathlib

/-!
# Verification of the Portugal nomad price wizard checkout core

Shallow embedding of the pricing engine, step-flow controller and payment
reset of `src/App.tsx` (a multi-step checkout form), together with proofs
of the specified properties.

Numbers are modelled as rationals (`ℚ`): all arithmetic in the source is
exact on the values involved (integer prices, discount fractions with
denominator 100).
-/

/-- The three checkout steps (`currentStep` in `App.tsx`). -/
inductive Step
  | selection
  | contact
  | payment
deriving DecidableEq

/-- Service category (`Service.category` in `App.tsx`). -/
inductive Category
  | essential
  | additional
  | premium
deriving DecidableEq

/-- A purchasable service (`interface Service` in `App.tsx`). -/
structure Service where
  id : String
  name : String
  description : String
  price : ℚ
  selected : Bool
  category : Category
deriving DecidableEq

/-- Contact-form data (`interface FormData` in `App.tsx`). -/
structure FormData where
  name : String
  email : String
  phone : String
  promoCode : String
deriving DecidableEq

/-- Discount rule kind (`DiscountRule.type` in `App.tsx`). -/
inductive DiscountType
  | bulk
  | promo
  | first_time
  | seasonal
deriving DecidableEq

/-- A discount rule (`interface DiscountRule` in `App.tsx`).  In the source
the condition is an optional closure over `(services, formData?)`; every
declared rule has a condition and the engine always passes both arguments,
so the condition is modelled as a total boolean function of both. -/
structure DiscountRule where
  type : DiscountType
  value : ℚ
  description : String
  condition : List Service → FormData → Bool

/-- JavaScript's `String.prototype.toUpperCase()`, embedded as a
character-wise upper-casing of the string (the promo code is only ever
compared against the ASCII literal `DIGITAL2024`, on which the two
coincide). -/
def jsToUpper (s : String) : String :=
  String.mk (s.data.map Char.toUpper)

/-- The initial service catalog (the `useState<Service[]>` initializer in
`App.tsx`): four services, none selected. -/
def initialServices : List Service :=
  [ { id := "1"
      name := "NIF (Налоговый номер)"
      description := "Получение португальского налогового номера (NIF) - обязательный документ для всех резидентов и нерезидентов, ведущих деятельность в Португалии. Включает подачу документов, сопровождение процесса и получение готового NIF."
      price := 100
      selected := false
      category := Category.essential }
  , { id := "2"
      name := "Поддержка в посольстве"
      description := "Полное сопровождение при подаче документов в консульство/посольство Португалии. Включает предварительную запись, подготовку пакета документов, консультацию перед подачей и помощь в случае дополнительных запросов."
      price := 300
      selected := false
      category := Category.essential }
  , { id := "3"
      name := "NISS номер"
      description := "Получение номера социального страхования NISS (Número de Identificação da Segurança Social) - необходим для работы и получения социальных услуг в Португалии. Включает подачу заявления и получение готового номера."
      price := 300
      selected := false
      category := Category.additional }
  , { id := "4"
      name := "Открытие банковского счета"
      description := "Помощь в открытии банковского счета в португальском банке. Включает выбор оптимального банка, подготовку документов, сопровождение при визите в банк и получение банковских карт."
      price := 400
      selected := false
      category := Category.premium } ]

/-- The catalog with explicitly chosen selection flags, in catalog order:
`appServices b1 b2 b3 b4` is the app's four services with the given
`selected` flags. -/
def appServices (b1 b2 b3 b4 : Bool) : List Service :=
  match initialServices with
  | [s1, s2, s3, s4] =>
      [ { s1 with selected := b1 }, { s2 with selected := b2 },
        { s3 with selected := b3 }, { s4 with selected := b4 } ]
  | l => l

/-- The `discountRules` array of `App.tsx`: bulk 15% when every service is
selected, promo 10% when the promo code upper-cases to `DIGITAL2024`,
first-time 5% when at least two services are selected. -/
def discountRules : List DiscountRule :=
  [ { type := DiscountType.bulk
      value := 15/100
      description := "Скидка 15% при заказе всех услуг"
      condition := fun services _ => services.all (fun s => s.selected) }
  , { type := DiscountType.promo
      value := 10/100
      description := "Промокод на 10% скидку"
      condition := fun _ formData => jsToUpper formData.promoCode == "DIGITAL2024" }
  , { type := DiscountType.first_time
      value := 5/100
      description := "Скидка 5% для новых клиентов"
      condition := fun services _ => 2 ≤ (services.filter (fun s => s.selected)).length } ]

/-- The derived pricing summary (`calculateTotal`'s return object). -/
structure Calculation where
  subtotal : ℚ
  discount : ℚ
  discountAmount : ℚ
  total : ℚ
  appliedDiscounts : List String
  selectedServices : List Service
deriving DecidableEq

/-- `calculateTotal` from `App.tsx`.  The `forEach` over `discountRules`
mutates two accumulators (`totalDiscount` via `Math.max`, and
`appliedDiscounts` via `push`); the two updates are independent, so they
are modelled as two left folds over the same rule list. -/
def calculateTotal (services : List Service) (formData : FormData) : Calculation :=
  let selectedServices := services.filter (fun s => s.selected)
  let subtotal := selectedServices.foldl (fun sum s => sum + s.price) 0
  let totalDiscount := discountRules.foldl
    (fun d rule => if rule.condition services formData then max d rule.value else d) 0
  let appliedDiscounts := discountRules.foldl
    (fun l rule => if rule.condition services formData then l ++ [rule.description] else l) []
  let discountAmount := subtotal * totalDiscount
  let total := subtotal - discountAmount
  { subtotal := subtotal
    discount := totalDiscount
    discountAmount := discountAmount
    total := total
    appliedDiscounts := appliedDiscounts
    selectedServices := selectedServices }

/-- `toggleService` from `App.tsx`: flip the `selected` flag of the service
whose id matches, keeping everything else. -/
def toggleService (id : String) (services : List Service) : List Service :=
  services.map (fun service =>
    if service.id = id then { service with selected := !service.selected } else service)

/-- Toast severity levels used by the toast collaborator. -/
inductive Severity
  | success
  | warning
  | error
deriving DecidableEq

/-- Modelled from the spec: the `validEmail` format check lives in the
`useValidation` collaborator (`./components/FormValidation`), which is not
among the repository sources.  The spec only requires a "valid email
format" that rejects `a@b` and accepts `a@b.com`, so the check is: the
string has an `@` with a non-empty part before it and a part after it that
is non-empty and contains a dot. -/
def validEmail (s : String) : Bool :=
  let cs := s.data
  let beforeAt := cs.takeWhile (fun c => c != '@')
  let afterAt := (cs.dropWhile (fun c => c != '@')).drop 1
  cs.contains '@' && !beforeAt.isEmpty && !afterAt.isEmpty && afterAt.contains '.'

/-- Modelled from the spec: the `validPhone` format check lives in the
`useValidation` collaborator (`./components/FormValidation`), which is not
among the repository sources.  The spec only requires a "valid phone
format" that rejects the empty string and accepts `+1234567890`, so the
check is: non-empty and made of digits, `+`, spaces, dashes and
parentheses. -/
def validPhone (s : String) : Bool :=
  !s.data.isEmpty &&
    s.data.all (fun c => c.isDigit || c == '+' || c == ' ' || c == '-' || c == '(' || c == ')')

/-- Modelled from the spec: `validateForm` of the `useValidation`
collaborator (`./components/FormValidation`) is not among the repository
sources.  Per the spec it validates name (required, minimum length 2),
email (required, valid format), phone (required, valid format), never the
promo code, and returns a list of field/message errors (empty means
valid).  Messages are placeholders; only the fields and emptiness matter
to the flow controller. -/
def validateForm (fd : FormData) : List (String × String) :=
  (if fd.name.data.isEmpty then [("name", "Обязательное поле")]
   else if fd.name.data.length < 2 then [("name", "Минимум 2 символа")] else [])
  ++ (if fd.email.data.isEmpty then [("email", "Обязательное поле")]
      else if !(validEmail fd.email) then [("email", "Некорректный email")] else [])
  ++ (if fd.phone.data.isEmpty then [("phone", "Обязательное поле")]
      else if !(validPhone fd.phone) then [("phone", "Некорректный телефон")] else [])

/-- The component state of `App` in `App.tsx`: the service list, the form
data, the field-error map (modelled as an association list), and the
boolean and step flags.  Transient UI state that never influences the core
(toast queue, per-card description toggles) is kept out; emitted toasts are
returned by the handlers instead. -/
structure AppState where
  services : List Service
  formData : FormData
  formErrors : List (String × String)
  termsAccepted : Bool
  showContactForm : Bool
  isProcessing : Bool
  currentStep : Step
deriving DecidableEq

/-- The empty form (`useState<FormData>` initializer, and the reset value
in `handlePayment`). -/
def emptyForm : FormData :=
  { name := "", email := "", phone := "", promoCode := "" }

/-- The initial application state of `App.tsx`. -/
def initialState : AppState :=
  { services := initialServices
    formData := emptyForm
    formErrors := []
    termsAccepted := false
    showContactForm := false
    isProcessing := false
    currentStep := Step.selection }

/-- `handleNextStep` from `App.tsx`, returning the successor state and the
emitted toasts.  On the contact step it runs `validateContactForm`, which
stores the freshly computed error map in `formErrors` and reports whether
it is empty. -/
def handleNextStep (s : AppState) : AppState × List (String × Severity) :=
  let calculation := calculateTotal s.services s.formData
  if calculation.selectedServices.length = 0 then
    (s, [("Выберите хотя бы одну услугу", Severity.warning)])
  else if s.currentStep = Step.selection then
    ({ s with currentStep := Step.contact, showContactForm := true }, [])
  else if s.currentStep = Step.contact then
    let errors := validateForm s.formData
    let s1 := { s with formErrors := errors }
    if errors.length = 0 then
      ({ s1 with currentStep := Step.payment },
        [("Данные успешно сохранены!", Severity.success)])
    else
      (s1, [("Пожалуйста, исправьте ошибки в форме", Severity.error)])
  else (s, [])

/-- `handlePayment` from `App.tsx`, run to completion: the handler sets
`isProcessing`, awaits the simulated delay (which always resolves, so the
`catch` branch is unreachable), emits the success toast, resets services,
form data, step, contact-form visibility and terms acceptance, and finally
clears `isProcessing`.  `formErrors` is not touched by the reset. -/
def handlePayment (method : String) (s : AppState) : AppState × List (String × Severity) :=
  ({ s with
      services := s.services.map (fun x => { x with selected := false })
      formData := { name := "", email := "", phone := "", promoCode := "" }
      currentStep := Step.selection
      showContactForm := false
      termsAccepted := false
      isProcessing := false },
   [("Оплата успешно проведена через " ++ method ++ "!", Severity.success)])

/-- The user-triggerable events of the UI. -/
inductive Event
  | toggle (id : String)
  | setName (v : String)
  | setEmail (v : String)
  | setPhone (v : String)
  | setPromo (v : String)
  | setTerms (b : Bool)
  | next
  | back
  | pay (method : String)

/-- One UI step: `stepFn s e` is the state after event `e` fires in state
`s`, or `none` when the control that fires `e` is not rendered there
(service cards only on the selection step, form fields and the terms
checkbox only on the contact step, the next button never on the payment
step, the back button never on the selection step, payment buttons only on
the payment step and only while not processing). -/
def stepFn (s : AppState) : Event → Option AppState
  | Event.toggle id =>
      if s.currentStep = Step.selection then
        some { s with services := toggleService id s.services }
      else none
  | Event.setName v =>
      if s.currentStep = Step.contact then
        some { s with formData := { s.formData with name := v } }
      else none
  | Event.setEmail v =>
      if s.currentStep = Step.contact then
        some { s with formData := { s.formData with email := v } }
      else none
  | Event.setPhone v =>
      if s.currentStep = Step.contact then
        some { s with formData := { s.formData with phone := v } }
      else none
  | Event.setPromo v =>
      if s.currentStep = Step.contact then
        some { s with formData := { s.formData with promoCode := v } }
      else none
  | Event.setTerms b =>
      if s.currentStep = Step.contact then
        some { s with termsAccepted := b }
      else none
  | Event.next =>
      if s.currentStep ≠ Step.payment then some (handleNextStep s).1 else none
  | Event.back =>
      if s.currentStep ≠ Step.selection then
        some { s with
          currentStep := if s.currentStep = Step.payment then Step.contact else Step.selection }
      else none
  | Event.pay method =>
      if s.currentStep = Step.payment then
        if s.isProcessing then none else some (handlePayment method s).1
      else none

/-- The states the application can actually be in: everything generated
from `initialState` by UI events. -/
inductive Reachable : AppState → Prop
  | init : Reachable initialState
  | step {s s' : AppState} {e : Event} :
      Reachable s → stepFn s e = some s' → Reachable s'

/-- Form data whose promo code matches the promo rule only up to case. -/
def promoForm : FormData :=
  { name := "", email := "", phone := "", promoCode := "digital2024" }

/-- The initial state with the first service selected. -/
def wSel : AppState := { initialState with services := appServices true false false false }

/-- `wSel` advanced to the contact step. -/
def wCon : AppState := { wSel with currentStep := Step.contact, showContactForm := true }

/-- Contact data that passes validation (the spec's accepted examples). -/
def goodFormW : FormData :=
  { name := "Jo", email := "a@b.com", phone := "+1234567890", promoCode := "" }

/-- `wCon` with the contact form filled in. -/
def wFilled : AppState := { wCon with formData := goodFormW }

/-- `wFilled` advanced to the payment step. -/
def wPay : AppState := { wFilled with currentStep := Step.payment }

set_option maxRecDepth 100000

/-- Folding price addition over a list starting from `a` adds the sum of
prices to `a`. -/
lemma foldl_add_price (l : List Service) (a : ℚ) :
    l.foldl (fun sum s => sum + s.price) a = a + (l.map (fun s => s.price)).sum := by
  induction l generalizing a with
  | nil => simp
  | cons x xs ih => simp [List.foldl, ih]; ring

/-- Claim C2: for every service list and form data, the subtotal returned
by `calculateTotal` is the sum of the prices of exactly the services whose
`selected` flag is true. -/
theorem calculateTotal_subtotal_eq_sum (services : List Service) (formData : FormData) :
    (calculateTotal services formData).subtotal =
      ((services.filter (fun s => s.selected)).map (fun s => s.price)).sum := by
  simp [calculateTotal, foldl_add_price]

/-- Claim C8: for every service list and form data, `appliedDiscounts`
returned by `calculateTotal` is exactly the list of descriptions of the
applicable discount rules, in rule-declaration order, regardless of which
rule's value wins. -/
theorem calculateTotal_appliedDiscounts (services : List Service) (formData : FormData) :
    (calculateTotal services formData).appliedDiscounts =
      (discountRules.filter (fun r => r.condition services formData)).map
        (fun r => r.description) := by
  cases h1 : services.all (fun s => s.selected) <;>
  cases h2 : (jsToUpper formData.promoCode == "DIGITAL2024") <;>
  cases h3 : decide (2 ≤ (services.filter (fun s => s.selected)).length) <;>
  simp [calculateTotal, discountRules, h1, h2, h3]

/-- Claim C3: for every service list and form data, the discount returned
by `calculateTotal` is the maximum value among the applicable rules (0
when none apply); in particular, with all four catalog services selected
the discount is 0.15 whatever the form data. -/
theorem calculateTotal_discount_max :
    (∀ (services : List Service) (formData : FormData),
       (calculateTotal services formData).discount =
         ((discountRules.filter (fun r => r.condition services formData)).map
             (fun r => r.value)).foldl max 0)
    ∧ (∀ formData : FormData,
       (calculateTotal (appServices true true true true) formData).discount = 15/100) := by
  constructor
  · intro services formData
    cases h1 : services.all (fun s => s.selected) <;>
    cases h2 : (jsToUpper formData.promoCode == "DIGITAL2024") <;>
    cases h3 : decide (2 ≤ (services.filter (fun s => s.selected)).length) <;>
    simp [calculateTotal, discountRules, h1, h2, h3]
  · intro formData
    cases h2 : (jsToUpper formData.promoCode == "DIGITAL2024") <;>
    simp [calculateTotal, discountRules, appServices, initialServices, h2] <;>
    norm_num [max_def]

/-- Claim C4: if the promo code upper-cases to `DIGITAL2024`, not all
services are selected, and at least two are, then the discount is 0.10. -/
theorem calculateTotal_promo_discount (services : List Service) (formData : FormData)
    (hp : jsToUpper formData.promoCode = "DIGITAL2024")
    (hall : services.all (fun s => s.selected) = false)
    (h2 : 2 ≤ (services.filter (fun s => s.selected)).length) :
    (calculateTotal services formData).discount = 10/100 := by
  simp [calculateTotal, discountRules, hall, hp, h2]
  norm_num [max_def]

/-- Witness for C4: the lower-case promo code `digital2024` with exactly
two of the four services selected yields discount 0.10. -/
theorem calculateTotal_promo_discount_witness :
    jsToUpper promoForm.promoCode = "DIGITAL2024"
    ∧ (appServices true true false false).all (fun s => s.selected) = false
    ∧ 2 ≤ ((appServices true true false false).filter (fun s => s.selected)).length
    ∧ (calculateTotal (appServices true true false false) promoForm).discount = 10/100 :=
  ⟨by decide, by decide, by decide,
   calculateTotal_promo_discount _ _ (by decide) (by decide) (by decide)⟩

/-- The discount is always one of the four rule-determined values. -/
lemma discount_mem (services : List Service) (formData : FormData) :
    (calculateTotal services formData).discount = 0
    ∨ (calculateTotal services formData).discount = 5/100
    ∨ (calculateTotal services formData).discount = 10/100
    ∨ (calculateTotal services formData).discount = 15/100 := by
  cases h1 : services.all (fun s => s.selected) <;>
  cases h2 : (jsToUpper formData.promoCode == "DIGITAL2024") <;>
  cases h3 : decide (2 ≤ (services.filter (fun s => s.selected)).length) <;>
  simp [calculateTotal, discountRules, h1, h2, h3] <;>
  norm_num [max_def]

/-- The discount fraction is never negative. -/
lemma discount_nonneg (services : List Service) (formData : FormData) :
    0 ≤ (calculateTotal services formData).discount := by
  rcases discount_mem services formData with h | h | h | h <;> rw [h] <;> norm_num

/-- The discount fraction never exceeds one. -/
lemma discount_le_one (services : List Service) (formData : FormData) :
    (calculateTotal services formData).discount ≤ 1 := by
  rcases discount_mem services formData with h | h | h | h <;> rw [h] <;> norm_num

/-- The total is the subtotal minus the discount amount. -/
lemma total_eq_sub (services : List Service) (formData : FormData) :
    (calculateTotal services formData).total =
      (calculateTotal services formData).subtotal -
        (calculateTotal services formData).subtotal *
          (calculateTotal services formData).discount := by
  simp [calculateTotal]

/-- With non-negative prices the subtotal is non-negative. -/
lemma subtotal_nonneg (services : List Service) (formData : FormData)
    (hpos : ∀ x ∈ services, 0 ≤ x.price) :
    0 ≤ (calculateTotal services formData).subtotal := by
  have hsum : (calculateTotal services formData).subtotal =
      ((services.filter (fun s => s.selected)).map (fun s => s.price)).sum := by
    simp [calculateTotal, foldl_add_price]
  rw [hsum]
  apply List.sum_nonneg
  intro q hq
  simp only [List.mem_map] at hq
  obtain ⟨x, hx, rfl⟩ := hq
  exact hpos x (List.mem_of_mem_filter hx)

/-- Claim C5: with non-negative prices, the total returned by
`calculateTotal` equals subtotal × (1 − discount), is non-negative, and
never exceeds the subtotal. -/
theorem calculateTotal_total_bounds (services : List Service) (formData : FormData)
    (hpos : ∀ x ∈ services, 0 ≤ x.price) :
    (calculateTotal services formData).total =
      (calculateTotal services formData).subtotal *
        (1 - (calculateTotal services formData).discount)
    ∧ 0 ≤ (calculateTotal services formData).total
    ∧ (calculateTotal services formData).total ≤ (calculateTotal services formData).subtotal := by
  have hsub := subtotal_nonneg services formData hpos
  have hd0 := discount_nonneg services formData
  have hd1 := discount_le_one services formData
  have ht := total_eq_sub services formData
  refine ⟨by rw [ht]; ring, ?_, ?_⟩
  · rw [ht]
    have hfac : (calculateTotal services formData).subtotal -
        (calculateTotal services formData).subtotal * (calculateTotal services formData).discount
        = (calculateTotal services formData).subtotal *
            (1 - (calculateTotal services formData).discount) := by
      ring
    rw [hfac]
    exact mul_nonneg hsub (by linarith)
  · rw [ht]
    nlinarith [mul_nonneg hsub hd0]

/-- Witness for C5: the full catalog (all prices non-negative) satisfies
the total identity and bounds. -/
theorem calculateTotal_total_bounds_witness :
    (∀ x ∈ initialServices, 0 ≤ x.price)
    ∧ ((calculateTotal initialServices promoForm).total =
        (calculateTotal initialServices promoForm).subtotal *
          (1 - (calculateTotal initialServices promoForm).discount)
      ∧ 0 ≤ (calculateTotal initialServices promoForm).total
      ∧ (calculateTotal initialServices promoForm).total ≤
          (calculateTotal initialServices promoForm).subtotal) :=
  ⟨by decide, calculateTotal_total_bounds _ _ (by decide)⟩

/-- Claim C9: `toggleService` only flips the `selected` flag of the
matching service: element-wise, position `j` holds the original service
with its flag negated when its id matches and the original service
unchanged otherwise; when no service carries the id, the list is
unchanged. -/
theorem toggleService_frame (id : String) (services : List Service) :
    (∀ j : ℕ, (toggleService id services)[j]? =
       (services[j]?).map (fun s =>
         if s.id = id then { s with selected := !s.selected } else s))
    ∧ ((∀ s ∈ services, s.id ≠ id) → toggleService id services = services) := by
  constructor
  · intro j
    simp [toggleService, List.getElem?_map]
  · intro h
    unfold toggleService
    have hmap : services.map (fun service =>
        if service.id = id then { service with selected := !service.selected } else service)
        = services.map (fun s => s) := by
      apply List.map_congr_left
      intro s hs
      simp [h s hs]
    rw [hmap]
    simp

/-- Witness for C9: toggling id `1` flips exactly the first catalog entry,
and toggling an id absent from the catalog changes nothing. -/
theorem toggleService_frame_witness :
    (toggleService "1" initialServices)[0]? =
      (initialServices[0]?).map (fun s =>
        if s.id = "1" then { s with selected := !s.selected } else s)
    ∧ toggleService "missing" initialServices = initialServices :=
  ⟨(toggleService_frame "1" initialServices).1 0,
   (toggleService_frame "missing" initialServices).2 (by decide)⟩

/-- Setting the `selected` flag of an unselected service to true increases
the number of selected services by one. -/
lemma length_filter_set_true (l : List Service) :
    ∀ (i : ℕ) (h : i < l.length),
      l[i].selected = false →
      ((l.set i { l[i] with selected := true }).filter (fun s => s.selected)).length
        = ((l.filter (fun s => s.selected)).length) + 1 := by
  induction l with
  | nil => intro i h; simp at h
  | cons x xs ih =>
      intro i h hx
      cases i with
      | zero =>
          simp only [List.getElem_cons_zero] at hx ⊢
          simp [List.set, List.filter, hx]
      | succ i =>
          simp only [List.getElem_cons_succ] at hx ⊢
          have h' : i < xs.length := by simpa using h
          have hrec := ih i h' hx
          by_cases hxsel : x.selected = true
          · simp [List.set, List.filter, hxsel, hrec]
          · simp only [Bool.not_eq_true] at hxsel
            simp [List.set, List.filter, hxsel, hrec]

/-- A list with an unselected element does not have every element
selected. -/
lemma all_selected_eq_false (l : List Service) (i : ℕ) (h : i < l.length)
    (hx : l[i].selected = false) :
    l.all (fun s => s.selected) = false := by
  cases hall : l.all (fun s => s.selected) with
  | false => rfl
  | true =>
      have hmem := List.all_eq_true.mp hall l[i] (l.getElem_mem h)
      rw [hx] at hmem
      exact absurd hmem (by simp)

/-- Claim C10: the discount fraction is monotone in the selection:
flipping any single service's `selected` flag from false to true never
decreases the discount computed by `calculateTotal`. -/
theorem discount_monotone (services : List Service) (formData : FormData) (i : ℕ)
    (h : i < services.length) (hs : services[i].selected = false) :
    (calculateTotal services formData).discount ≤
      (calculateTotal (services.set i { services[i] with selected := true })
        formData).discount := by
  have hall : services.all (fun s => s.selected) = false :=
    all_selected_eq_false services i h hs
  have hcnt := length_filter_set_true services i h hs
  set l' := services.set i { services[i] with selected := true } with hl'
  by_cases hc1 : 2 ≤ (services.filter (fun s => s.selected)).length
  · have hc2 : 2 ≤ (l'.filter (fun s => s.selected)).length := by omega
    cases hb : l'.all (fun s => s.selected) <;>
    cases hp : (jsToUpper formData.promoCode == "DIGITAL2024") <;>
    simp [calculateTotal, discountRules, hall, hb, hp, hc1, hc2] <;>
    norm_num [max_def]
  · by_cases hc2 : 2 ≤ (l'.filter (fun s => s.selected)).length <;>
    cases hb : l'.all (fun s => s.selected) <;>
    cases hp : (jsToUpper formData.promoCode == "DIGITAL2024") <;>
    simp [calculateTotal, discountRules, hall, hb, hp, hc1, hc2] <;>
    norm_num [max_def]

/-- Witness for C10: selecting the first (unselected) service while the
last two are already selected does not decrease the discount. -/
theorem discount_monotone_witness :
    ((appServices false false true true).get ⟨0, by decide⟩).selected = false
    ∧ (calculateTotal (appServices false false true true) emptyForm).discount ≤
        (calculateTotal ((appServices false false true true).set 0
          { (appServices false false true true).get ⟨0, by decide⟩ with selected := true })
          emptyForm).discount :=
  ⟨by decide, discount_monotone _ _ 0 (by decide) (by decide)⟩

/-- Claim C7: the back control maps the payment step to the contact step
and the contact step to the selection step, and is absent on the
selection step. -/
theorem back_button_spec (s : AppState) :
    (s.currentStep = Step.payment →
      stepFn s Event.back = some { s with currentStep := Step.contact })
    ∧ (s.currentStep = Step.contact →
      stepFn s Event.back = some { s with currentStep := Step.selection })
    ∧ (s.currentStep = Step.selection → stepFn s Event.back = none) := by
  refine ⟨fun h => ?_, fun h => ?_, fun h => ?_⟩ <;> simp [stepFn, h]

/-- Witness for C7: the back transition evaluated on the three concrete
steps of the initial state. -/
theorem back_button_spec_witness :
    stepFn { initialState with currentStep := Step.payment } Event.back
        = some { initialState with currentStep := Step.contact }
    ∧ stepFn { initialState with currentStep := Step.contact } Event.back
        = some { initialState with currentStep := Step.selection }
    ∧ stepFn initialState Event.back = none :=
  ⟨(back_button_spec _).1 rfl, (back_button_spec _).2.1 rfl, (back_button_spec _).2.2 rfl⟩

/-- Claim C6: on the selection step, `handleNextStep` with zero selected
services leaves the state unchanged (emitting only a warning toast and no
field-level error), and with at least one selected service moves the
current step to the contact step. -/
theorem handleNextStep_selection (s : AppState) (hs : s.currentStep = Step.selection) :
    ((s.services.filter (fun x => x.selected)).length = 0 →
       (handleNextStep s).1 = s
       ∧ (handleNextStep s).2 = [("Выберите хотя бы одну услугу", Severity.warning)]
       ∧ (handleNextStep s).1.formErrors = s.formErrors)
    ∧ (0 < (s.services.filter (fun x => x.selected)).length →
       (handleNextStep s).1.currentStep = Step.contact) := by
  constructor
  · intro h0
    simp [handleNextStep, calculateTotal, h0]
  · intro hpos
    have h0 : ¬ ((s.services.filter (fun x => x.selected)).length = 0) := by omega
    simp [handleNextStep, calculateTotal, h0, hs]

/-- Witness for C6: the empty initial selection is rejected unchanged with
a warning, and a one-service selection advances to the contact step. -/
theorem handleNextStep_selection_witness :
    ((handleNextStep initialState).1 = initialState
      ∧ (handleNextStep initialState).2 = [("Выберите хотя бы одну услугу", Severity.warning)]
      ∧ (handleNextStep initialState).1.formErrors = initialState.formErrors)
    ∧ (handleNextStep wSel).1.currentStep = Step.contact :=
  ⟨(handleNextStep_selection initialState (by decide)).1 (by decide),
   (handleNextStep_selection wSel (by decide)).2 (by decide)⟩

/-- Toggling a service commutes with clearing every `selected` flag. -/
lemma toggleService_map_reset (id : String) (l : List Service) :
    (toggleService id l).map (fun x => { x with selected := false })
      = l.map (fun x => { x with selected := false }) := by
  simp only [toggleService, List.map_map]
  apply List.map_congr_left
  intro s _
  by_cases h : s.id = id <;> simp [h]

/-- Invariant of every reachable state: the services are the catalog up to
selection flags, and on the payment step the error map is empty (the only
transition into the payment step stores the validation result, which must
have been empty). -/
lemma reachable_inv (s : AppState) (hr : Reachable s) :
    s.services.map (fun x => { x with selected := false }) = initialServices
    ∧ (s.currentStep = Step.payment → s.formErrors = []) := by
  induction hr with
  | init => exact ⟨rfl, fun _ => rfl⟩
  | @step t t' e _ hstep ih =>
      cases e with
      | toggle id =>
          simp only [stepFn, Option.ite_none_right_eq_some, Option.some.injEq] at hstep
          obtain ⟨hsel, rfl⟩ := hstep
          refine ⟨?_, ?_⟩
          · simpa [toggleService_map_reset] using ih.1
          · intro hp
            simp only at hp
            rw [hsel] at hp
            exact absurd hp (by simp)
      | setName v =>
          simp only [stepFn, Option.ite_none_right_eq_some, Option.some.injEq] at hstep
          obtain ⟨hc, rfl⟩ := hstep
          exact ⟨ih.1, fun hp => absurd (hc ▸ hp) (by simp)⟩
      | setEmail v =>
          simp only [stepFn, Option.ite_none_right_eq_some, Option.some.injEq] at hstep
          obtain ⟨hc, rfl⟩ := hstep
          exact ⟨ih.1, fun hp => absurd (hc ▸ hp) (by simp)⟩
      | setPhone v =>
          simp only [stepFn, Option.ite_none_right_eq_some, Option.some.injEq] at hstep
          obtain ⟨hc, rfl⟩ := hstep
          exact ⟨ih.1, fun hp => absurd (hc ▸ hp) (by simp)⟩
      | setPromo v =>
          simp only [stepFn, Option.ite_none_right_eq_some, Option.some.injEq] at hstep
          obtain ⟨hc, rfl⟩ := hstep
          exact ⟨ih.1, fun hp => absurd (hc ▸ hp) (by simp)⟩
      | setTerms b =>
          simp only [stepFn, Option.ite_none_right_eq_some, Option.some.injEq] at hstep
          obtain ⟨hc, rfl⟩ := hstep
          exact ⟨ih.1, fun hp => absurd (hc ▸ hp) (by simp)⟩
      | next =>
          simp only [stepFn, ne_eq, ite_not, Option.ite_none_left_eq_some,
            Option.some.injEq] at hstep
          obtain ⟨hne, rfl⟩ := hstep
          by_cases h0 : ((calculateTotal t.services t.formData).selectedServices).length = 0
          · simpa [handleNextStep, h0] using ih
          · by_cases hsel : t.currentStep = Step.selection
            · simp [handleNextStep, h0, hsel, ih.1]
            · by_cases hcon : t.currentStep = Step.contact
              · by_cases hval : (validateForm t.formData).length = 0
                · have hnil : validateForm t.formData = [] := List.length_eq_zero.mp hval
                  simp [handleNextStep, h0, hsel, hcon, hval, hnil, ih.1]
                · simp [handleNextStep, h0, hsel, hcon, hval, ih.1]
              · simpa [handleNextStep, h0, hsel, hcon] using ih
      | back =>
          simp only [stepFn, ne_eq, ite_not, Option.ite_none_left_eq_some,
            Option.some.injEq] at hstep
          obtain ⟨hne, rfl⟩ := hstep
          refine ⟨ih.1, fun hp => ?_⟩
          simp only at hp
          split at hp <;> exact absurd hp (by simp)
      | pay m =>
          simp only [stepFn] at hstep
          by_cases hc : t.currentStep = Step.payment
          · simp only [hc, if_true] at hstep
            by_cases hproc : t.isProcessing
            · simp [hproc] at hstep
            · rw [if_neg hproc] at hstep
              injection hstep with hstep
              subst hstep
              refine ⟨?_, fun _ => ?_⟩
              · simp only [handlePayment, List.map_map]
                have hcomp : t.services.map
                    ((fun x => { x with selected := false }) ∘
                      (fun x => { x with selected := false }))
                    = t.services.map (fun x => { x with selected := false }) := by
                  apply List.map_congr_left
                  intro u _
                  rfl
                rw [hcomp]
                exact ih.1
              · exact (ih.2 hc)
          · simp [hc] at hstep

/-- Claim C1: from every reachable state on the payment step, completing
the simulated payment returns the application to the exact initial state:
no service selected, empty form data, empty error map, terms not
accepted, contact form hidden, not processing, step back to selection. -/
theorem handlePayment_resets (s : AppState) (hr : Reachable s)
    (hs : s.currentStep = Step.payment) (method : String) :
    (handlePayment method s).1 = initialState := by
  obtain ⟨h1, h2⟩ := reachable_inv s hr
  have h3 := h2 hs
  simp [handlePayment, initialState, emptyForm, h1, h3]

/-- Witness for C1: a concrete payment-step state reached by selecting a
service, advancing, filling valid contact data and advancing again; the
payment handler sends it back to the initial state. -/
theorem handlePayment_resets_witness :
    wPay.currentStep = Step.payment ∧ (handlePayment "eur" wPay).1 = initialState := by
  have h1 : Reachable wSel :=
    Reachable.step (e := Event.toggle "1") Reachable.init (by decide)
  have h2 : Reachable wCon :=
    Reachable.step (e := Event.next) h1 (by decide)
  have h3 : Reachable { wCon with formData := { wCon.formData with name := "Jo" } } :=
    Reachable.step (e := Event.setName "Jo") h2 (by decide)
  have h4 : Reachable { wCon with formData :=
      { name := "Jo", email := "a@b.com", phone := "", promoCode := "" } } :=
    Reachable.step (e := Event.setEmail "a@b.com") h3 (by decide)
  have h5 : Reachable wFilled :=
    Reachable.step (e := Event.setPhone "+1234567890") h4 (by decide)
  have h6 : Reachable wPay :=
    Reachable.step (e := Event.next) h5 (by decide)
  exact ⟨by decide, handlePayment_resets wPay h6 (by decide) "eur"⟩
